import Mathlib

/-!
Verification development for the UOA Cloudflare worker (src/worker.js).

The worker is embedded shallowly: JavaScript values are modelled by the
inductive JVal below (JSON values plus the undefined value), JavaScript
numbers by JNum (NaN, the two infinities, and finite values modelled as
exact rationals; IEEE-754 rounding and overflow of decimal literals to
Infinity are not modelled, and neither is the exponent notation that
JavaScript uses when printing numbers of magnitude at least 1e21 or
below 1e-6 - none of the verified properties depend on these), and each
function of worker.js that the claims touch is translated into a Lean
definition of the same name.
-/

set_option maxHeartbeats 1000000
set_option maxRecDepth 10000

namespace UOA

/-- Model of a JavaScript number: NaN, the infinities, or a finite value
(an exact rational standing for the IEEE-754 double). -/
inductive JNum where
  | nan
  | posInf
  | negInf
  | fin (q : ℚ)
deriving DecidableEq

/-- Model of a JavaScript value as the worker manipulates them: the
undefined value, null, booleans, numbers, strings, arrays and plain
objects (an object is its ordered field list). -/
inductive JVal where
  | undef
  | null
  | bool (b : Bool)
  | num (n : JNum)
  | str (s : String)
  | arr (elems : List JVal)
  | obj (fields : List (String × JVal))

mutual

/-- Structural Bool equality on JVal. -/
def jvalBeq : JVal → JVal → Bool
  | JVal.undef, JVal.undef => true
  | JVal.null, JVal.null => true
  | JVal.bool a, JVal.bool b => decide (a = b)
  | JVal.num a, JVal.num b => decide (a = b)
  | JVal.str a, JVal.str b => decide (a = b)
  | JVal.arr a, JVal.arr b => jvalListBeq a b
  | JVal.obj a, JVal.obj b => jvalFieldsBeq a b
  | _, _ => false

/-- Structural Bool equality on lists of JVal. -/
def jvalListBeq : List JVal → List JVal → Bool
  | [], [] => true
  | x :: xs, y :: ys => jvalBeq x y && jvalListBeq xs ys
  | _, _ => false

/-- Structural Bool equality on object field lists. -/
def jvalFieldsBeq : List (String × JVal) → List (String × JVal) → Bool
  | [], [] => true
  | (k, v) :: xs, (k2, v2) :: ys => decide (k = k2) && jvalBeq v v2 && jvalFieldsBeq xs ys
  | _, _ => false

end

mutual

def jvalBeq_iff : (a b : JVal) → (jvalBeq a b = true ↔ a = b)
  | JVal.undef, b => by cases b <;> simp [jvalBeq]
  | JVal.null, b => by cases b <;> simp [jvalBeq]
  | JVal.bool x, b => by cases b <;> simp [jvalBeq]
  | JVal.num x, b => by cases b <;> simp [jvalBeq]
  | JVal.str x, b => by cases b <;> simp [jvalBeq]
  | JVal.arr xs, b => by
    cases b <;> simp [jvalBeq]
    exact jvalListBeq_iff xs _
  | JVal.obj fs, b => by
    cases b <;> simp [jvalBeq]
    exact jvalFieldsBeq_iff fs _

def jvalListBeq_iff : (a b : List JVal) → (jvalListBeq a b = true ↔ a = b)
  | [], b => by cases b <;> simp [jvalListBeq]
  | x :: xs, [] => by simp [jvalListBeq]
  | x :: xs, y :: ys => by
    simp [jvalListBeq, jvalBeq_iff x y, jvalListBeq_iff xs ys]

def jvalFieldsBeq_iff : (a b : List (String × JVal)) → (jvalFieldsBeq a b = true ↔ a = b)
  | [], b => by cases b <;> simp [jvalFieldsBeq]
  | x :: xs, [] => by simp [jvalFieldsBeq]
  | (k, v) :: xs, (k2, v2) :: ys => by
    simp [jvalFieldsBeq, jvalBeq_iff v v2, jvalFieldsBeq_iff xs ys, and_assoc]

end

instance : DecidableEq JVal := fun a b => decidable_of_iff _ (jvalBeq_iff a b)

/-- The JavaScript whitespace characters that matter for the inputs this
worker sees (String.prototype.trim also strips rarer Unicode spaces,
which never occur in the query strings and JSON payloads modelled here). -/
def jsWhitespace (c : Char) : Bool :=
  (c == ' ') || (c == '\t') || (c == '\n') || (c == '\r')

/-- Model of String.prototype.trim. -/
def jsTrim (s : String) : String :=
  String.mk (((s.data.dropWhile jsWhitespace).reverse.dropWhile jsWhitespace).reverse)

/-- ASCII lower-casing of one character, as toLowerCase acts on the ASCII
inputs this worker sees. -/
def lowerChar (c : Char) : Char :=
  if 65 ≤ c.toNat ∧ c.toNat ≤ 90 then Char.ofNat (c.toNat + 32) else c

/-- Model of String.prototype.toLowerCase on ASCII data. -/
def lowerStr (s : String) : String :=
  String.mk (s.data.map lowerChar)

/-- ASCII upper-casing of one character. -/
def upperChar (c : Char) : Char :=
  if 97 ≤ c.toNat ∧ c.toNat ≤ 122 then Char.ofNat (c.toNat - 32) else c

/-- Whether one character list is a prefix of another, as a Bool. -/
def isPrefixOfB : List Char → List Char → Bool
  | [], _ => true
  | _ :: _, [] => false
  | a :: as, b :: bs => (a == b) && isPrefixOfB as bs

/-- Whether pat occurs as a contiguous substring of hay. -/
def containsSub : List Char → List Char → Bool
  | [], pat => pat.isEmpty
  | h :: t, pat => isPrefixOfB pat (h :: t) || containsSub t pat

/-- Model of String.prototype.includes. -/
def strIncludes (s pat : String) : Bool :=
  containsSub s.data pat.data

/-- The characters kept by the sanitizer regex replace(/[^0-9.+-]/g, "")
in worker.js line 197. -/
def numericKeep (c : Char) : Bool :=
  c.isDigit || (c == '.') || (c == '+') || (c == '-')

/-- Strip every character other than digits, dot, plus and minus,
modelling replace(/[^0-9.+-]/g, "") in worker.js line 197. -/
def cleanNumeric (s : String) : String :=
  String.mk (s.data.filter numericKeep)

/-- Numeric value of one decimal digit character. -/
def digitVal (c : Char) : Nat := c.toNat - 48

/-- Value of a list of decimal digit characters. -/
def digitsToNat (ds : List Char) : Nat :=
  ds.foldl (fun a c => a * 10 + digitVal c) 0

/-- The rational of a natural number, built with mkRat so that concrete
computations reduce. -/
def qOfNat (n : Nat) : ℚ :=
  mkRat (Int.ofNat n) 1

/-- Rational multiplication, built with mkRat so that concrete
computations reduce. -/
def qMul (a b : ℚ) : ℚ :=
  mkRat (a.num * b.num) (a.den * b.den)

/-- Rational addition, built with mkRat so that concrete computations
reduce. -/
def qAdd (a b : ℚ) : ℚ :=
  mkRat (a.num * Int.ofNat b.den + b.num * Int.ofNat a.den) (a.den * b.den)

/-- Rational negation, built with mkRat so that concrete computations
reduce. -/
def qNeg (a : ℚ) : ℚ :=
  mkRat (-a.num) a.den

/-- Integer power of ten over the rationals. -/
def pow10 (e : Int) : ℚ :=
  if 0 ≤ e then qOfNat (10 ^ e.toNat) else mkRat 1 (10 ^ (-e).toNat)

/-- Strip one optional leading sign, returning whether it was a minus. -/
def stripSign (cs : List Char) : Bool × List Char :=
  match cs with
  | c :: t => if c = '-' then (true, t) else if c = '+' then (false, t) else (false, c :: t)
  | [] => (false, [])

/-- Parse the optional exponent part of a decimal literal; the whole
remaining input must be consumed. -/
def parseExpPart (cs : List Char) : Option Int :=
  match cs with
  | [] => some 0
  | c :: t =>
    if (c == 'e') || (c == 'E') then
      let (neg, t2) := stripSign t
      let ds := t2.takeWhile Char.isDigit
      let rest := t2.dropWhile Char.isDigit
      if ds.isEmpty || !rest.isEmpty then none
      else some (if neg then -(Int.ofNat (digitsToNat ds)) else Int.ofNat (digitsToNat ds))
    else none

/-- Parse an unsigned decimal literal (digits, optional fraction,
optional exponent), consuming the whole input. -/
def parseUnsignedDec (cs : List Char) : Option ℚ :=
  let ip := cs.takeWhile Char.isDigit
  let r1 := cs.dropWhile Char.isDigit
  let tailInt : Option ℚ :=
    if ip.isEmpty then none
    else (parseExpPart r1).map (fun e => qMul (qOfNat (digitsToNat ip)) (pow10 e))
  match r1 with
  | c :: r2 =>
    if c = '.' then
      let fp := r2.takeWhile Char.isDigit
      let r3 := r2.dropWhile Char.isDigit
      if ip.isEmpty && fp.isEmpty then none
      else (parseExpPart r3).map (fun e =>
        qMul (qAdd (qOfNat (digitsToNat ip)) (mkRat (Int.ofNat (digitsToNat fp)) (10 ^ fp.length)))
          (pow10 e))
    else tailInt
  | [] => tailInt

/-- Value of one hexadecimal digit character, if any. -/
def hexDigitVal (c : Char) : Option Nat :=
  if c.isDigit then some (c.toNat - 48)
  else if 97 ≤ c.toNat ∧ c.toNat ≤ 102 then some (c.toNat - 87)
  else if 65 ≤ c.toNat ∧ c.toNat ≤ 70 then some (c.toNat - 55)
  else none

/-- Parse a nonempty digit string in the given base. -/
def parseBaseDigits (base : Nat) (cs : List Char) : Option Nat :=
  cs.foldl
    (fun acc c =>
      match acc, hexDigitVal c with
      | some a, some d => if d < base then some (a * base + d) else none
      | _, _ => none)
    (if cs.isEmpty then none else some 0)

/-- Parse the non-decimal numeric literal forms 0x, 0o, 0b accepted by
the JavaScript Number conversion (no sign is allowed before them). -/
def parseNonDecimal (cs : List Char) : Option ℚ :=
  match cs with
  | c0 :: c1 :: rest =>
    if c0 = '0' then
      if (c1 == 'x') || (c1 == 'X') then (parseBaseDigits 16 rest).map (fun n => qOfNat n)
      else if (c1 == 'o') || (c1 == 'O') then (parseBaseDigits 8 rest).map (fun n => qOfNat n)
      else if (c1 == 'b') || (c1 == 'B') then (parseBaseDigits 2 rest).map (fun n => qOfNat n)
      else none
    else none
  | _ => none

/-- Model of the JavaScript string-to-number conversion (the behaviour of
Number(s) on strings): trim, empty gives 0, then a signed decimal
literal, Infinity, or an unsigned non-decimal literal; anything else is
NaN. -/
def parseJsNumber (s : String) : JNum :=
  let t := jsTrim s
  if t.data.isEmpty then JNum.fin 0
  else
    match parseNonDecimal t.data with
    | some q => JNum.fin q
    | none =>
      let (neg, cs) := stripSign t.data
      if cs = ("Infinity").data then (if neg then JNum.negInf else JNum.posInf)
      else
        match parseUnsignedDec cs with
        | some q => JNum.fin (if neg then qNeg q else q)
        | none => JNum.nan

/-- Smallest number of decimal places after which the rational terminates,
if it does within 1200 places (every number representable as an IEEE-754
double does). -/
def decExponent (q : ℚ) : Option Nat :=
  (List.range 1201).find? (fun k => (qMul q (qOfNat (10 ^ k))).den = 1)

/-- Insert a decimal point k digits from the right of a digit string. -/
def insertPoint (digits : String) (k : Nat) : String :=
  let ds := digits.data
  if k = 0 then digits
  else if ds.length ≤ k then ("0.") ++ String.mk (List.replicate (k - ds.length) '0') ++ digits
  else String.mk (ds.take (ds.length - k)) ++ (".") ++ String.mk (ds.drop (ds.length - k))

/-- Model of the JavaScript number-to-string conversion, exact for
integers and terminating decimals (which cover every IEEE-754 double);
the e-notation JavaScript switches to outside [1e-6, 1e21) is not
modelled, and a non-terminating rational (unreachable from a double)
prints as num/den. -/
def jnumToString : JNum → String
  | JNum.nan => ("NaN")
  | JNum.posInf => ("Infinity")
  | JNum.negInf => ("-Infinity")
  | JNum.fin q =>
    if q = 0 then ("0")
    else
      let sgn := if q < 0 then ("-") else ("")
      let a : ℚ := if q < 0 then qNeg q else q
      match decExponent a with
      | some k => sgn ++ insertPoint (Nat.repr (qMul a (qOfNat (10 ^ k))).num.toNat) k
      | none => sgn ++ Int.repr a.num ++ ("/") ++ Nat.repr a.den

mutual

/-- Model of the JavaScript ToString conversion as the worker uses it in
template literals and String(...) calls. -/
def jsToString : JVal → String
  | JVal.undef => ("undefined")
  | JVal.null => ("null")
  | JVal.bool b => if b then ("true") else ("false")
  | JVal.num n => jnumToString n
  | JVal.str s => s
  | JVal.arr xs => jsArrJoin xs
  | JVal.obj _ => ("[object Object]")

/-- Array-to-string: elements joined by commas, null and undefined
elements printing as empty. -/
def jsArrJoin : List JVal → String
  | [] => ("")
  | v :: vs =>
    let head := match v with
      | JVal.undef => ("")
      | JVal.null => ("")
      | w => jsToString w
    match vs with
    | [] => head
    | _ :: _ => head ++ (",") ++ jsArrJoin vs

end

/-- Model of the JavaScript ToNumber conversion (the Number(...) calls in
worker.js): arrays and objects convert through their string form. -/
def toNumber : JVal → JNum
  | JVal.undef => JNum.nan
  | JVal.null => JNum.fin 0
  | JVal.bool b => JNum.fin (if b then 1 else 0)
  | JVal.num n => n
  | JVal.str s => parseJsNumber s
  | JVal.arr xs => parseJsNumber (jsToString (JVal.arr xs))
  | JVal.obj fs => parseJsNumber (jsToString (JVal.obj fs))

/-- Whether a JNum is a finite number, modelling Number.isFinite. -/
def jnumIsFinite : JNum → Bool
  | JNum.fin _ => true
  | _ => false

/-- JavaScript truthiness of a value. -/
def truthy : JVal → Bool
  | JVal.undef => false
  | JVal.null => false
  | JVal.bool b => b
  | JVal.num JNum.nan => false
  | JVal.num (JNum.fin q) => decide (q ≠ 0)
  | JVal.num _ => true
  | JVal.str s => decide (s ≠ (""))
  | JVal.arr _ => true
  | JVal.obj _ => true

/-- The JavaScript logical-or a || b on values. -/
def jsOr (a b : JVal) : JVal :=
  if truthy a then a else b

/-- Whether a value is null or undefined (the values skipped by the
JavaScript nullish operator a ?? b). -/
def isNullish : JVal → Bool
  | JVal.undef => true
  | JVal.null => true
  | _ => false

/-- The JavaScript nullish-coalescing a ?? b. -/
def nullish (a b : JVal) : JVal :=
  if isNullish a then b else a

/-- First non-nullish value of a list, with the numeric literal 0 as the
final default, modelling the chains Number(a ?? b ?? ... ?? 0) used for
every numeric canonical field (worker.js lines 247-274). -/
def nullishList : List JVal → JVal
  | [] => JVal.num (JNum.fin 0)
  | v :: vs => if isNullish v = true then nullishList vs else v

/-- Property access row?.k: the named field of an object (with the
JSON semantics that a duplicated key keeps its last value), undefined on
everything else. -/
def lastLookup : List (String × JVal) → String → JVal
  | [], _ => JVal.undef
  | p :: ps, k =>
    match lastLookup ps k with
    | JVal.undef => if p.1 = k then p.2 else JVal.undef
    | w => w

/-- Property access row?.k on any value. -/
def jget : JVal → String → JVal
  | JVal.obj fs, k => lastLookup fs k
  | _, _ => JVal.undef

/-- The listed fields of a row, in order. -/
def jgetL (row : JVal) (keys : List String) : List JVal :=
  keys.map (jget row)

/-- Resolve a numeric canonical field: Number of the first non-nullish
candidate, defaulting to the literal 0 (worker.js lines 247-274). -/
def resolveNum (row : JVal) (keys : List String) : JNum :=
  toNumber (nullishList (jgetL row keys))

/-- First candidate that is a finite number after Number coercion, else
first string candidate whose character-cleaned form parses finite
(worker.js extractFirstFiniteNumber, lines 503-520). -/
def extractFirstFiniteNumber : List JVal → Option ℚ
  | [] => none
  | v :: vs =>
    match toNumber v with
    | JNum.fin q => some q
    | _ =>
      match v with
      | JVal.str s =>
        let cleaned := cleanNumeric s
        if cleaned.data.isEmpty then extractFirstFiniteNumber vs
        else
          match parseJsNumber cleaned with
          | JNum.fin q => some q
          | _ => extractFirstFiniteNumber vs
      | _ => extractFirstFiniteNumber vs

/-- First candidate that is a string with nonempty trim, trimmed
(worker.js extractFirstString, lines 522-529). -/
def extractFirstString : List JVal → String
  | [] => ("")
  | v :: vs =>
    match v with
    | JVal.str s => if (jsTrim s).data.isEmpty then extractFirstString vs else jsTrim s
    | _ => extractFirstString vs

/-- The string tokens recognized as true by extractFirstBoolean. -/
def trueTokens : List String := [("true"), ("t"), ("yes"), ("y"), ("1")]

/-- The string tokens recognized as false by extractFirstBoolean. -/
def falseTokens : List String := [("false"), ("f"), ("no"), ("n"), ("0")]

/-- First candidate recognized as a boolean: booleans pass through, the
numbers 1 and 0 map to true and false, recognized string tokens map
case-insensitively, everything else is skipped, default false
(worker.js extractFirstBoolean, lines 531-552). -/
def extractFirstBoolean : List JVal → Bool
  | [] => false
  | v :: vs =>
    match v with
    | JVal.bool b => b
    | JVal.num (JNum.fin q) =>
      if q = 1 then true
      else if q = 0 then false
      else extractFirstBoolean vs
    | JVal.str s =>
      let n := lowerStr (jsTrim s)
      if n.data.isEmpty then extractFirstBoolean vs
      else if trueTokens.contains n then true
      else if falseTokens.contains n then false
      else extractFirstBoolean vs
    | _ => extractFirstBoolean vs

/-- What one candidate contributes to extractFirstBoolean: some b when
the candidate is recognized, none when it is skipped. -/
def recognizeBool : JVal → Option Bool
  | JVal.bool b => some b
  | JVal.num (JNum.fin q) =>
    if q = 1 then some true
    else if q = 0 then some false
    else none
  | JVal.str s =>
    let n := lowerStr (jsTrim s)
    if n.data.isEmpty then none
    else if trueTokens.contains n then some true
    else if falseTokens.contains n then some false
    else none
  | _ => none

/-- Keep ASCII alphanumerics, turn every other character into an
underscore (the replace(/[^a-z0-9]+/gi, "_") step, run-collapsing done
separately). -/
def underscoreMap (cs : List Char) : List Char :=
  cs.map (fun c => if c.isAlpha || c.isDigit then c else '_')

/-- Collapse runs of underscores to a single underscore
(the replace(/_+/g, "_") step). -/
def collapseU : List Char → List Char
  | [] => []
  | '_' :: '_' :: cs => collapseU ('_' :: cs)
  | c :: cs => c :: collapseU cs
termination_by cs => cs.length

/-- Drop a single leading underscore. -/
def dropLeadU : List Char → List Char
  | '_' :: t => t
  | t => t

/-- Drop one leading and one trailing underscore
(the replace(/^_|_$/g, "") step; after collapsing there is at most one
of each). -/
def stripEdgeU (cs : List Char) : List Char :=
  (dropLeadU ((dropLeadU cs).reverse)).reverse

/-- The text normalization inside normalizeAggressorIndicator
(worker.js lines 431-435): non-alphanumerics to underscores, collapse,
strip edges, upper-case. -/
def aggNormalizeText (text : String) : String :=
  String.mk ((stripEdgeU (collapseU (underscoreMap text.data))).map upperChar)

/-- The synonym table of normalizeAggressorIndicator
(worker.js lines 441-465). -/
def aggMapping : List (String × String) := [
  (("ATASK"), ("AT_ASK")), (("ASK"), ("AT_ASK")), (("AT_OR_ABOVE_ASK"), ("AT_ASK")),
  (("OVER_ASK"), ("ABOVE_ASK")), (("ABOVEASK"), ("ABOVE_ASK")), (("ABOVE_THE_ASK"), ("ABOVE_ASK")),
  (("LIFT"), ("AT_ASK")), (("LIFT_ASK"), ("AT_ASK")), (("TAKE"), ("AT_ASK")), (("TAKE_ASK"), ("AT_ASK")),
  (("ATBID"), ("AT_BID")), (("BID"), ("AT_BID")), (("HIT_BID"), ("AT_BID")),
  (("AT_OR_BELOW_BID"), ("AT_BID")), (("UNDER_BID"), ("BELOW_BID")), (("BELOWBID"), ("BELOW_BID")),
  (("BELOW_THE_BID"), ("BELOW_BID")), (("SELLER"), ("AT_BID")), (("BUYER"), ("AT_ASK")),
  (("MID"), ("AT_MIDPOINT")), (("ATMID"), ("AT_MIDPOINT")), (("AT_MID"), ("AT_MIDPOINT")),
  (("ATMIDPOINT"), ("AT_MIDPOINT"))]

/-- Apply the synonym table, falling back to the normalized text itself
(mapping[normalized] || normalized; every table value is truthy). -/
def aggMapApply (n : String) : String :=
  match (aggMapping.find? (fun p => decide (p.1 = n))).map (fun p => p.2) with
  | some m => m
  | none => n

/-- Model of normalizeAggressorIndicator (worker.js lines 421-468). -/
def normalizeAggressorIndicator (v : JVal) : String :=
  match v with
  | JVal.undef => ("")
  | JVal.null => ("")
  | _ =>
    let text := jsTrim (jsToString v)
    if text.data.isEmpty then ("")
    else
      let n := aggNormalizeText text
      if n.data.isEmpty then ("") else aggMapApply n

/-- Model of extractFirstAggressorIndicator (worker.js lines 411-419). -/
def extractFirstAggressorIndicator : List JVal → String
  | [] => ("")
  | v :: vs =>
    let n := normalizeAggressorIndicator v
    if n.data.isEmpty then extractFirstAggressorIndicator vs else n

/-- The canonical indicators counted as aggressive buying
(worker.js lines 470-476). -/
def AGGRESSIVE_BUY_INDICATORS : List String :=
  [("AT_ASK"), ("ABOVE_ASK"), ("AT_OR_ABOVE_ASK"), ("OVER_ASK"), ("BUYER")]

/-- The canonical indicators counted as aggressive selling
(worker.js lines 478-485). -/
def AGGRESSIVE_SELL_INDICATORS : List String :=
  [("AT_BID"), ("BELOW_BID"), ("AT_OR_BELOW_BID"), ("UNDER_BID"), ("SELLER"), ("HIT_BID")]

/-- Model of isAggressiveBuyIndicator (worker.js lines 487-493). -/
def isAggressiveBuyIndicator (v : String) : Bool :=
  if v = ("") then false
  else AGGRESSIVE_BUY_INDICATORS.contains (normalizeAggressorIndicator (JVal.str v))

/-- Model of isAggressiveSellIndicator (worker.js lines 495-501). -/
def isAggressiveSellIndicator (v : String) : Bool :=
  if v = ("") then false
  else AGGRESSIVE_SELL_INDICATORS.contains (normalizeAggressorIndicator (JVal.str v))

/-- Truncate a rational toward zero, as the Date constructor clips its
millisecond argument. -/
def ratTrunc (q : ℚ) : Int :=
  Int.tdiv q.num (Int.ofNat q.den)

/-- Civil date (year, month, day) from a count of days since 1970-01-01,
by the standard era-based algorithm over truncating division. -/
def civilFromDays (z0 : Int) : Int × Nat × Nat :=
  let z := z0 + 719468
  let era : Int := Int.tdiv (if 0 ≤ z then z else z - 146096) 146097
  let doe : Nat := (z - era * 146097).toNat
  let yoe : Nat := (doe - doe / 1460 + doe / 36524 - doe / 146096) / 365
  let doy : Nat := doe - (365 * yoe + yoe / 4 - yoe / 100)
  let mp : Nat := (5 * doy + 2) / 153
  let d : Nat := doy - (153 * mp + 2) / 5 + 1
  let m : Nat := if mp < 10 then mp + 3 else mp - 9
  let y : Int := (yoe : Int) + era * 400
  (if m ≤ 2 then y + 1 else y, m, d)

/-- Left-pad to two digits. -/
def pad2 (n : Nat) : String :=
  if n < 10 then ("0") ++ Nat.repr n else Nat.repr n

/-- Left-pad to four digits. -/
def pad4 (n : Nat) : String :=
  if n < 10 then ("000") ++ Nat.repr n
  else if n < 100 then ("00") ++ Nat.repr n
  else if n < 1000 then ("0") ++ Nat.repr n
  else Nat.repr n

/-- Year component of an ISO date string (expanded-year form outside
0-9999, as toISOString prints). -/
def yearString (y : Int) : String :=
  if 0 ≤ y ∧ y ≤ 9999 then pad4 y.toNat
  else if y < 0 then ("-") ++ Nat.repr (-y).toNat
  else ("+") ++ Nat.repr y.toNat

/-- The display string the worker derives from an epoch value: the
toISOString output with T replaced by a space and the millisecond part
dropped (worker.js line 573). -/
def isoFromMs (ms : Int) : String :=
  let day : Int := Int.fdiv ms 86400000
  let tod : Nat := (ms - day * 86400000).toNat
  let ymd := civilFromDays day
  yearString ymd.1 ++ ("-") ++ pad2 ymd.2.1 ++ ("-") ++ pad2 ymd.2.2 ++ (" ") ++
    pad2 (tod / 3600000) ++ (":") ++ pad2 (tod % 3600000 / 60000) ++ (":") ++
    pad2 (tod % 60000 / 1000) ++ ("Z")

/-- Model of buildDisplayTime (worker.js lines 554-574). When date and
time are absent the epoch branch runs: a falsy Number(updated) (0 or
NaN) gives the empty string, an infinite value makes the Date invalid
(so also empty), a magnitude above 1e12 is taken as milliseconds,
otherwise seconds, and an out-of-range clipped time is an invalid Date. -/
def buildDisplayTime (date time updated : JVal) : JVal :=
  if truthy date && truthy time then
    JVal.str (jsTrim (jsToString date ++ (" ") ++ jsToString time))
  else if truthy time then time
  else if truthy date then date
  else
    match toNumber updated with
    | JNum.fin q =>
      if q = 0 then JVal.str ("")
      else
        let msq : ℚ := if qOfNat (10 ^ (12 : Nat)) < q then q else qMul q (qOfNat 1000)
        let ms : Int := ratTrunc msq
        if 8640000000000000 < |ms| then JVal.str ("") else JVal.str (isoFromMs ms)
    | _ => JVal.str ("")

/-- The pos_in_spread threshold test posInSpread >= 0.75 guarded by
Number.isFinite (worker.js lines 127 and 382); the none case is the
absent value, for which Number.isFinite is false. -/
def posGeThreshold : Option ℚ → Bool
  | some q => decide (mkRat 3 4 ≤ q)
  | none => false

/-- The pos_in_spread threshold test posInSpread <= 0.25 guarded by
Number.isFinite (worker.js lines 129 and 383). -/
def posLeThreshold : Option ℚ → Bool
  | some q => decide (q ≤ mkRat 1 4)
  | none => false

/-- The normalized output record of normalizeBenzingaPayload
(worker.js lines 385-407). Fields that the code passes through
untouched from truthiness-chains keep type JVal (a raw payload may put
a number there); pos_in_spread is a finite number or null, modelled as
Option; aggressor_indicator is a nonempty string or null. -/
structure CanonicalRecord where
  id : JVal
  ticker : JVal
  type : JVal
  side : JVal
  sweep : Bool
  premium : JNum
  trade_price : JNum
  quantity : JNum
  strike : JNum
  expiry : JVal
  time : JVal
  iv : JNum
  underlying_price : JNum
  open_interest : JNum
  pos_in_spread : Option ℚ
  price_relation : String
  at_or_above_ask : Bool
  at_or_below_bid : Bool
  aggressive_buy : Bool
  aggressive_sell : Bool
  aggressor_indicator : Option String
deriving DecidableEq

/-- Candidate source fields for premium (worker.js lines 247-255). -/
def premiumKeys : List String :=
  [("cost_basis"), ("total_trade_value"), ("total_cost"), ("premium"), ("notional_value"), ("notional")]

/-- Candidate source fields for trade_price (worker.js line 256). -/
def tradePriceKeys : List String := [("price"), ("trade_price"), ("fill_price")]

/-- Candidate source fields for quantity (worker.js line 257). -/
def quantityKeys : List String := [("size"), ("quantity"), ("volume")]

/-- Candidate source fields for open_interest (worker.js lines 258-265). -/
def openInterestKeys : List String :=
  [("open_interest"), ("open_interest_prior"), ("previous_open_interest"), ("openInterest"), ("oi")]

/-- Candidate source fields for strike (worker.js line 266). -/
def strikeKeys : List String := [("strike_price"), ("strike")]

/-- Candidate source fields for iv (worker.js line 271). -/
def ivKeys : List String := [("iv"), ("implied_volatility")]

/-- Candidate source fields for underlying_price (worker.js lines 272-274). -/
def underlyingPriceKeys : List String :=
  [("underlying_price"), ("underlying_price_last"), ("underlying_last")]

/-- Candidate source fields for pos_in_spread (worker.js lines 281-286). -/
def posInSpreadKeys : List String :=
  [("pos_in_spread"), ("posInSpread"), ("position_in_spread"), ("positionInSpread")]

/-- Candidate source fields for the price-relation text
(worker.js lines 289-302). -/
def priceRelationKeys : List String :=
  [("price_relation"), ("price_relation_description"), ("price_level"), ("priceLevel"),
   ("trade_price_relation"), ("tradePriceRelation"), ("trade_at"), ("tradeAt"),
   ("price_condition"), ("priceCondition"), ("price_condition_detail"), ("priceConditionDetail")]

/-- Candidate source fields for the aggressor indicator
(worker.js lines 306-317). -/
def aggressorKeys : List String :=
  [("aggressor_ind"), ("aggressor_indicator"), ("aggressorIndicator"), ("aggressorInd"),
   ("execution_side"), ("executionSide"), ("trade_side"), ("tradeSide"),
   ("price_at_execution"), ("priceAtExecution")]

/-- Candidate explicit at-or-above-ask hint fields
(worker.js lines 322-333). -/
def atOrAboveAskKeys : List String :=
  [("at_or_above_ask"), ("atOrAboveAsk"), ("at_ask"), ("atAsk"), ("above_ask"), ("aboveAsk"),
   ("is_at_ask"), ("isAtAsk"), ("is_above_ask"), ("isAboveAsk")]

/-- Candidate explicit at-or-below-bid hint fields
(worker.js lines 334-345). -/
def atOrBelowBidKeys : List String :=
  [("at_or_below_bid"), ("atOrBelowBid"), ("at_bid"), ("atBid"), ("below_bid"), ("belowBid"),
   ("is_at_bid"), ("isAtBid"), ("is_below_bid"), ("isBelowBid")]

/-- The buy-side phrases searched in the price-relation text
(worker.js lines 358-368). -/
def askPhraseHit (prl : String) : Bool :=
  strIncludes prl ("at ask") || strIncludes prl ("above ask") || strIncludes prl ("ask side") ||
    strIncludes prl ("over ask") || strIncludes prl ("take ask")

/-- The sell-side phrases searched in the price-relation text
(worker.js lines 370-380). -/
def bidPhraseHit (prl : String) : Bool :=
  strIncludes prl ("at bid") || strIncludes prl ("below bid") || strIncludes prl ("bid side") ||
    strIncludes prl ("under bid") || strIncludes prl ("hit bid")

/-- The ticker of a raw row (worker.js line 238). -/
def rowTicker (row : JVal) : JVal :=
  jsOr (jget row ("ticker")) (jsOr (jget row ("symbol"))
    (jsOr (jget row ("underlying_symbol")) (jsOr (jget row ("underlying_ticker")) (JVal.str ("")))))

/-- The raw time value of a row (worker.js line 269). -/
def rowTime (row : JVal) : JVal :=
  jsOr (jget row ("time")) (jsOr (jget row ("trade_time")) (JVal.str ("")))

/-- The id of a normalized record (worker.js lines 275-279): first truthy
of id, identifier, option_symbol, else the template string
ticker-or-flow, dash, time-or-updated-or-now. -/
def deriveId (row : JVal) (now : Nat) : JVal :=
  jsOr (jget row ("id")) (jsOr (jget row ("identifier")) (jsOr (jget row ("option_symbol"))
    (JVal.str (jsToString (jsOr (rowTicker row) (JVal.str ("flow"))) ++ ("-") ++
      jsToString (jsOr (rowTime row) (jsOr (jget row ("updated")) (JVal.num (JNum.fin (now : ℚ)))))))))

/-- Model of the per-row body of normalizeBenzingaPayload
(worker.js lines 237-408). Date.now() is passed in as the parameter
now (milliseconds). -/
def normalizeRow (row : JVal) (now : Nat) : CanonicalRecord :=
  let ticker := rowTicker row
  let ty := jsOr (jget row ("put_call")) (jsOr (jget row ("option_type")) (JVal.str ("")))
  let side := jsOr (jget row ("sentiment")) (jsOr (jget row ("side")) (JVal.str ("")))
  let sweepValue := nullish (jget row ("sweep")) (nullish (jget row ("is_sweep"))
    (nullish (jget row ("order_type")) (jget row ("option_activity_type"))))
  let sweep := match sweepValue with
    | JVal.bool b => b
    | JVal.str s => strIncludes (lowerStr s) ("sweep")
    | _ => false
  let premium := resolveNum row premiumKeys
  let tradePrice := resolveNum row tradePriceKeys
  let quantity := resolveNum row quantityKeys
  let openInterest := resolveNum row openInterestKeys
  let strike := resolveNum row strikeKeys
  let expiry := jsOr (jget row ("date_expiration"))
    (jsOr (jget row ("expiration_date")) (jsOr (jget row ("expiry")) (JVal.str (""))))
  let date := jsOr (jget row ("date")) (jsOr (jget row ("trade_date")) (JVal.str ("")))
  let time := rowTime row
  let timeDisplay := buildDisplayTime date time (jget row ("updated"))
  let iv := resolveNum row ivKeys
  let underlyingPrice := resolveNum row underlyingPriceKeys
  let id := deriveId row now
  let posInSpread := extractFirstFiniteNumber (jgetL row posInSpreadKeys)
  let priceRelation := extractFirstString (jgetL row priceRelationKeys)
  let priceRelationLower := lowerStr priceRelation
  let aggressorIndicator := extractFirstAggressorIndicator (jgetL row aggressorKeys)
  let a0 := extractFirstBoolean (jgetL row atOrAboveAskKeys)
  let b0 := extractFirstBoolean (jgetL row atOrBelowBidKeys)
  let a1 := if !a0 && isAggressiveBuyIndicator aggressorIndicator then true else a0
  let b1 := if !b0 && isAggressiveSellIndicator aggressorIndicator then true else b0
  let a2 := if !a1 && !priceRelationLower.data.isEmpty && askPhraseHit priceRelationLower
    then true else a1
  let b2 := if !b1 && !priceRelationLower.data.isEmpty && bidPhraseHit priceRelationLower
    then true else b1
  { id := id
  , ticker := ticker
  , type := ty
  , side := side
  , sweep := sweep
  , premium := premium
  , trade_price := tradePrice
  , quantity := quantity
  , strike := strike
  , expiry := expiry
  , time := timeDisplay
  , iv := iv
  , underlying_price := underlyingPrice
  , open_interest := openInterest
  , pos_in_spread := posInSpread
  , price_relation := priceRelation
  , at_or_above_ask := a2
  , at_or_below_bid := b2
  , aggressive_buy := a2 || posGeThreshold posInSpread
  , aggressive_sell := b2 || posLeThreshold posInSpread
  , aggressor_indicator := if aggressorIndicator = ("") then none else some aggressorIndicator }

/-- Locate the record array inside the upstream payload
(worker.js lines 227-235). -/
def extractRows (data : JVal) : List JVal :=
  match data with
  | JVal.arr xs => xs
  | _ =>
    match jget data ("option_activity") with
    | JVal.arr xs => xs
    | _ =>
      match jget (jget data ("data")) ("option_activity") with
      | JVal.arr xs => xs
      | _ =>
        match jget data ("data") with
        | JVal.arr xs => xs
        | _ => []

/-- Model of normalizeBenzingaPayload (worker.js lines 226-409). -/
def normalizeBenzingaPayload (data : JVal) (now : Nat) : List CanonicalRecord :=
  (extractRows data).map (fun r => normalizeRow r now)

/-- The comparison row.premium >= min on a JavaScript number
(false for NaN, true for positive infinity). -/
def jnumGeQ : JNum → ℚ → Bool
  | JNum.fin q, m => decide (m ≤ q)
  | JNum.posInf, _ => true
  | _, _ => false

/-- The comparison a > b on JavaScript numbers (false when either is
NaN). -/
def jnumGtJ : JNum → JNum → Bool
  | JNum.nan, _ => false
  | _, JNum.nan => false
  | JNum.posInf, JNum.posInf => false
  | JNum.posInf, _ => true
  | JNum.negInf, _ => false
  | JNum.fin _, JNum.posInf => false
  | JNum.fin _, JNum.negInf => true
  | JNum.fin a, JNum.fin b => decide (b < a)

/-- The premium filter stage (worker.js lines 105-109): when a sanitized
minimum premium exists, keep rows with finite premium at least the
minimum; otherwise pass everything through. -/
def premiumStage (minP : Option ℚ) (rows : List CanonicalRecord) : List CanonicalRecord :=
  match minP with
  | some m => rows.filter (fun r => jnumIsFinite r.premium && jnumGeQ r.premium m)
  | none => rows

/-- The volume-versus-open-interest filter stage
(worker.js lines 110-116). -/
def volumeStage (enabled : Bool) (rows : List CanonicalRecord) : List CanonicalRecord :=
  if enabled then
    rows.filter (fun r =>
      jnumIsFinite r.quantity && jnumIsFinite r.open_interest && jnumGtJ r.quantity r.open_interest)
  else rows

/-- The aggressive-buy test recomputed inside the aggression filter
(worker.js lines 119-127): on a normalized record the alias chain
pos_in_spread ?? position_in_spread ?? posInSpread ?? positionInSpread
reduces to the pos_in_spread field (null falls through the chain to
undefined, whose Number is NaN). -/
def meetsAggressiveBuy (r : CanonicalRecord) : Bool :=
  r.aggressive_buy || r.at_or_above_ask || posGeThreshold r.pos_in_spread

/-- The aggressive-sell test recomputed inside the aggression filter
(worker.js lines 128-129). -/
def meetsAggressiveSell (r : CanonicalRecord) : Bool :=
  r.aggressive_sell || r.at_or_below_bid || posLeThreshold r.pos_in_spread

/-- The aggression filter stage (worker.js lines 118-141). -/
def aggressionStage (buyOnly sellOnly : Bool) (rows : List CanonicalRecord) : List CanonicalRecord :=
  rows.filter (fun r =>
    if buyOnly && sellOnly then meetsAggressiveBuy r || meetsAggressiveSell r
    else if buyOnly then meetsAggressiveBuy r
    else if sellOnly then meetsAggressiveSell r
    else true)

/-- The local filter parameters of one request. -/
structure FilterFlags where
  minPremium : Option ℚ
  volumeGtOi : Bool
  aggressiveBuyOnly : Bool
  aggressiveSellOnly : Bool

/-- The full filter pipeline in the order the worker applies it
(worker.js lines 105-141): premium, then volume versus open interest,
then aggression. -/
def applyFilters (fl : FilterFlags) (rows : List CanonicalRecord) : List CanonicalRecord :=
  aggressionStage fl.aggressiveBuyOnly fl.aggressiveSellOnly
    (volumeStage fl.volumeGtOi (premiumStage fl.minPremium rows))

/-- The validated numeric filter (worker.js lines 187-208). -/
structure NumericFilter where
  numericValue : ℚ
  textValue : String
deriving DecidableEq

/-- Model of normalizeNumericFilter (worker.js lines 187-208): null and
undefined are rejected, the input is stringified and trimmed, every
character except digits, dot, plus and minus is stripped, an empty or
lone-sign remainder is rejected, and the remainder must convert to a
finite number. The function is total: absence (none) is the only error
signal. -/
def normalizeNumericFilter (value : JVal) : Option NumericFilter :=
  if isNullish value = true then none
  else
    let trimmed := jsTrim (jsToString value)
    if trimmed.data.isEmpty then none
    else
      let cleaned := cleanNumeric trimmed
      if cleaned = ("") ∨ cleaned = ("+") ∨ cleaned = ("-") then none
      else
        match parseJsNumber cleaned with
        | JNum.fin q => some { numericValue := q, textValue := cleaned }
        | _ => none

/-- A URL as the worker builds them: the part before the query string,
plus the ordered query parameter list. The parsing of the
environment-supplied base URL string into this shape is abstracted. -/
structure JsURL where
  origin : String
  query : List (String × String)
deriving DecidableEq

/-- Remove every pair with the given key. -/
def removeKey : List (String × String) → String → List (String × String)
  | [], _ => []
  | p :: ps, k => if p.1 = k then removeKey ps k else p :: removeKey ps k

/-- Model of URLSearchParams.set: replace the first pair with the key and
drop later duplicates, or append when the key is absent. -/
def spSet : List (String × String) → String → String → List (String × String)
  | [], k, v => [(k, v)]
  | p :: ps, k, v => if p.1 = k then (k, v) :: removeKey ps k else p :: spSet ps k v

/-- Model of URLSearchParams.get: value of the first pair with the key. -/
def qlookup : List (String × String) → String → Option String
  | [], _ => none
  | p :: ps, k => if p.1 = k then some p.2 else qlookup ps k

/-- The inputs of buildBenzingaURL (worker.js line 210). -/
structure BenzingaArgs where
  baseUrl : JsURL
  token : Option String
  tickers : String
  sentiment : String
  minPremium : Option String
  sweepOnly : Bool
  page : String
  pageSize : String
  dateFrom : String
  dateTo : String

/-- Model of buildBenzingaURL (worker.js lines 210-224): conditionally
set token, tickers, sentiment, min_total_trade_value, sweep_only,
date_from and date_to (falsy values are omitted), then always set page
and pagesize. -/
def buildBenzingaURL (a : BenzingaArgs) : JsURL :=
  let q := a.baseUrl.query
  let q := match a.token with
    | some t => if t = ("") then q else spSet q ("token") t
    | none => q
  let q := if a.tickers = ("") then q else spSet q ("tickers") a.tickers
  let q := if a.sentiment = ("") then q else spSet q ("sentiment") a.sentiment
  let q := match a.minPremium with
    | some t => if t = ("") then q else spSet q ("min_total_trade_value") t
    | none => q
  let q := if a.sweepOnly then spSet q ("sweep_only") ("true") else q
  let q := if a.dateFrom = ("") then q else spSet q ("date_from") a.dateFrom
  let q := if a.dateTo = ("") then q else spSet q ("date_to") a.dateTo
  let q := spSet q ("page") a.page
  let q := spSet q ("pagesize") a.pageSize
  { origin := a.baseUrl.origin, query := q }

/-- Render a flag for the cache key. -/
def boolStr (b : Bool) : String :=
  if b then ("true") else ("false")

/-- Model of the cache-key construction (worker.js lines 90-94): the
upstream URL with the three local-only filter flags appended as
explicit boolean query parameters. -/
def buildCacheKey (api : JsURL) (volumeGtOi aggBuy aggSell : Bool) : JsURL :=
  { origin := api.origin
  , query := spSet (spSet (spSet api.query ("volume_gt_oi") (boolStr volumeGtOi))
      ("aggressive_buy_only") (boolStr aggBuy)) ("aggressive_sell_only") (boolStr aggSell) }

/-- Whether typeof gives "object" (null, arrays and objects). -/
def typeofIsObject : JVal → Bool
  | JVal.null => true
  | JVal.arr _ => true
  | JVal.obj _ => true
  | _ => false

/-- The errors-array fallback of extractUpstreamError
(worker.js lines 589-595). -/
def extractUpstreamErrors (data : JVal) (dflt : String) : String :=
  match jget data ("errors") with
  | JVal.arr (f :: _) =>
    (match f with
     | JVal.str s => s
     | _ =>
       if truthy f then
         match jget f ("message") with
         | JVal.str s => s
         | _ => dflt
       else dflt)
  | _ => dflt

/-- Model of extractUpstreamError (worker.js lines 576-596). -/
def extractUpstreamError (data : JVal) (fallback : String) : String :=
  let dflt := if fallback = ("") then ("Upstream request failed") else fallback
  if !(truthy data && typeofIsObject data) then dflt
  else
    match jget data ("error") with
    | JVal.str s =>
      if s = ("") then
        match jget data ("message") with
        | JVal.str m =>
          if m = ("") then extractUpstreamErrors data dflt else m
        | _ => extractUpstreamErrors data dflt
      else s
    | _ =>
      match jget data ("message") with
      | JVal.str m =>
        if m = ("") then extractUpstreamErrors data dflt else m
      | _ => extractUpstreamErrors data dflt

/-- Serialize a normalized record back to the JSON object the worker
returns (field order of worker.js lines 385-407). -/
def recordToJVal (r : CanonicalRecord) : JVal :=
  JVal.obj [
    (("id"), r.id), (("ticker"), r.ticker), (("type"), r.type), (("side"), r.side),
    (("sweep"), JVal.bool r.sweep),
    (("premium"), JVal.num r.premium), (("trade_price"), JVal.num r.trade_price),
    (("quantity"), JVal.num r.quantity), (("strike"), JVal.num r.strike),
    (("expiry"), r.expiry), (("time"), r.time),
    (("iv"), JVal.num r.iv), (("underlying_price"), JVal.num r.underlying_price),
    (("open_interest"), JVal.num r.open_interest),
    (("pos_in_spread"), match r.pos_in_spread with | some q => JVal.num (JNum.fin q) | none => JVal.null),
    (("price_relation"), JVal.str r.price_relation),
    (("at_or_above_ask"), JVal.bool r.at_or_above_ask),
    (("at_or_below_bid"), JVal.bool r.at_or_below_bid),
    (("aggressive_buy"), JVal.bool r.aggressive_buy),
    (("aggressive_sell"), JVal.bool r.aggressive_sell),
    (("aggressor_indicator"), match r.aggressor_indicator with | some s => JVal.str s | none => JVal.null)]

/-- The success envelope (worker.js lines 143-151). -/
def successPayload (status : Nat) (page pageSize : String) (results : List CanonicalRecord) : JVal :=
  JVal.obj [
    (("ok"), JVal.bool true),
    (("source_status"), JVal.num (JNum.fin (status : ℚ))),
    (("page"), JVal.num (parseJsNumber page)),
    (("page_size"), JVal.num (parseJsNumber pageSize)),
    (("count"), JVal.num (JNum.fin (results.length : ℚ))),
    (("results"), JVal.arr (results.map recordToJVal))]

/-- The failure envelope (worker.js lines 152-157). -/
def failurePayload (status : Nat) (data : JVal) (statusText : String) : JVal :=
  JVal.obj [
    (("ok"), JVal.bool false),
    (("source_status"), JVal.num (JNum.fin (status : ℚ))),
    (("error"), JVal.str (extractUpstreamError data statusText)),
    (("error_details"), if typeofIsObject data then data else JVal.obj [(("raw"), data)])]

/-- Whether a body has the failure envelope shape documented for the
core: ok false, an integer source_status, a string error and an
object-typed error_details. -/
def isFailureEnvelopeShape : JVal → Bool
  | JVal.obj [(k1, JVal.bool false), (k2, JVal.num (JNum.fin _)), (k3, JVal.str _), (k4, d)] =>
    decide (k1 = ("ok")) && decide (k2 = ("source_status")) && decide (k3 = ("error")) &&
      decide (k4 = ("error_details")) && typeofIsObject d
  | _ => false

/-- The environment bindings the handler reads. The empty apiKey models
a missing BENZINGA_API_KEY secret (both are falsy in the check on
worker.js line 85); cacheTtl is the already-parsed CACHE_TTL_SECONDS. -/
structure WorkerEnv where
  apiKey : String
  useAuthHeader : Bool
  baseUrl : JsURL
  cacheTtl : Nat

/-- The upstream fetch outcome the handler observes: the HTTP ok flag
and status, the status text, and the decoded JSON body (none when the
body was not JSON, in which case worker.js line 103 substitutes an
error object). -/
structure UpstreamResponse where
  ok : Bool
  status : Nat
  statusText : String
  jsonBody : Option JVal

/-- A response as the handler builds them: status, JSON body, and the
cache-control header of the copy written to cache (none on the direct
response). -/
structure HttpResponse where
  status : Nat
  body : JVal
  cacheControl : Option String
deriving DecidableEq

/-- The cache store, keyed by request URL. -/
def Cache := List (JsURL × HttpResponse)

/-- URLSearchParams.get on the inbound request query: first value of the
key, none when absent. -/
def pget (ps : List (String × String)) (k : String) : Option String :=
  qlookup ps k

/-- First parameter present among the listed aliases (the chains
params.get(a) ?? params.get(b) in worker.js lines 49-60). -/
def firstParam (ps : List (String × String)) : List String → Option String
  | [] => none
  | k :: ks =>
    match pget ps k with
    | some s => some s
    | none => firstParam ps ks

/-- A boolean query flag: the first present alias (default the string
false) lower-cased and compared with true (worker.js lines 52-60). -/
def boolParam (ps : List (String × String)) (keys : List String) : Bool :=
  decide (lowerStr ((firstParam ps keys).getD ("false")) = ("true"))

/-- First truthy parameter among the listed aliases, with a default (the
chains params.get(a) || params.get(b) || d in worker.js lines 61-67:
an empty string falls through). -/
def orParam (ps : List (String × String)) : List String → String → String
  | [], d => d
  | k :: ks, d =>
    match pget ps k with
    | some s => if s = ("") then orParam ps ks d else s
    | none => orParam ps ks d

/-- The raw min-premium parameter as the sanitizer receives it
(worker.js line 49): a string when either alias is present, otherwise
the null that params.get returns. -/
def minPremiumRawOf (ps : List (String × String)) : JVal :=
  match firstParam ps [("min_premium"), ("min_total_trade_value")] with
  | some s => JVal.str s
  | none => JVal.null

/-- The upstream request URL for one inbound request
(worker.js lines 45-83). -/
def requestUpstreamURL (env : WorkerEnv) (ps : List (String × String)) : JsURL :=
  buildBenzingaURL
    { baseUrl := env.baseUrl
    , token := if env.useAuthHeader then none else some env.apiKey
    , tickers := jsTrim ((pget ps ("tickers")).getD (""))
    , sentiment := jsTrim ((pget ps ("sentiment")).getD (""))
    , minPremium := (normalizeNumericFilter (minPremiumRawOf ps)).map (fun f => f.textValue)
    , sweepOnly := boolParam ps [("sweep_only"), ("sweepOnly")]
    , page := orParam ps [("page"), ("page_number")] ("1")
    , pageSize := orParam ps [("page_size"), ("pagesize"), ("pageSize"), ("limit")] ("50")
    , dateFrom := (pget ps ("date_from")).getD ("")
    , dateTo := (pget ps ("date_to")).getD ("") }

/-- The cache key for one inbound request (worker.js lines 89-94). -/
def requestCacheKey (env : WorkerEnv) (ps : List (String × String)) : JsURL :=
  buildCacheKey (requestUpstreamURL env ps)
    (boolParam ps [("volume_gt_oi"), ("volumeGtOi"), ("size_gt_oi")])
    (boolParam ps [("aggressive_buy_only"), ("aggressiveBuyOnly")])
    (boolParam ps [("aggressive_sell_only"), ("aggressiveSellOnly")])

/-- Cache lookup by key (caches.default.match). -/
def cacheFind (cache : Cache) (key : JsURL) : Option HttpResponse :=
  ((cache : List (JsURL × HttpResponse)).find? (fun e => decide (e.1 = key))).map (fun e => e.2)

/-- Cache write by key (cache.put overwrites an existing entry). -/
def cachePut : Cache → JsURL → HttpResponse → Cache
  | [], k, r => [(k, r)]
  | e :: es, k, r => if e.1 = k then (k, r) :: es else e :: cachePut es k r

/-- The response to a request made without the API key secret
(worker.js lines 85-87). -/
def missingKeyResponse : HttpResponse :=
  { status := 500
  , body := JVal.obj [(("error"), JVal.str ("Missing BENZINGA_API_KEY secret"))]
  , cacheControl := none }

/-- The cache-miss path (worker.js lines 98-172): decode the upstream
body (substituting an error object when it was not JSON), normalize on
success, run the three filter stages, assemble the success or failure
envelope, and write the response copy to cache only when the upstream
response was ok. The asynchronous ctx.waitUntil write is modelled as
part of the returned cache state; the final Bool records that the
upstream fetch ran. -/
def fetchAndRespond (env : WorkerEnv) (ps : List (String × String)) (cache : Cache)
    (key : JsURL) (upstream : UpstreamResponse) (now : Nat) : HttpResponse × Cache × Bool :=
  let data := upstream.jsonBody.getD (JVal.obj [(("error"), JVal.str ("Upstream decode failed"))])
  let normalized := if upstream.ok then normalizeBenzingaPayload data now else []
  let minPremiumFilter := normalizeNumericFilter (minPremiumRawOf ps)
  let premiumFiltered := premiumStage (minPremiumFilter.map (fun f => f.numericValue)) normalized
  let volumeFiltered := volumeStage (boolParam ps [("volume_gt_oi"), ("volumeGtOi"), ("size_gt_oi")]) premiumFiltered
  let aggressionFiltered := aggressionStage
    (boolParam ps [("aggressive_buy_only"), ("aggressiveBuyOnly")])
    (boolParam ps [("aggressive_sell_only"), ("aggressiveSellOnly")]) volumeFiltered
  let payload := if upstream.ok
    then successPayload upstream.status (orParam ps [("page"), ("page_number")] ("1"))
      (orParam ps [("page_size"), ("pagesize"), ("pageSize"), ("limit")] ("50")) aggressionFiltered
    else failurePayload upstream.status data upstream.statusText
  let status := if upstream.ok then 200 else upstream.status
  let res : HttpResponse := { status := status, body := payload, cacheControl := none }
  let newCache := if upstream.ok
    then cachePut cache key
      { status := status, body := payload
      , cacheControl := some (("public, max-age=") ++ Nat.repr env.cacheTtl) }
    else cache
  (res, newCache, true)

/-- Model of handleUOARequest (worker.js lines 45-175), one request
end to end: the missing-credential check, the cache lookup, and on a
miss the fetch-and-store path. The upstream argument is what the fetch
would observe; the returned Bool tells whether it was consulted. -/
def handleUOARequest (env : WorkerEnv) (ps : List (String × String)) (cache : Cache)
    (upstream : UpstreamResponse) (now : Nat) : HttpResponse × Cache × Bool :=
  if env.apiKey = ("") then (missingKeyResponse, cache, false)
  else
    let key := requestCacheKey env ps
    match cacheFind cache key with
    | some r => (r, cache, false)
    | none => fetchAndRespond env ps cache key upstream now

/-- Whether a character is a plus or minus sign. -/
def signChar (c : Char) : Bool :=
  (c == '+') || (c == '-')

/-- Whether a nonempty string consists only of sign characters. -/
def onlySigns (s : String) : Bool :=
  !s.data.isEmpty && s.data.all signChar

/-- The character-cleaned form of a sanitizer input: its string form
with every character except digits, dot, plus and minus stripped. -/
def cleanedOf (v : JVal) : String :=
  cleanNumeric (jsToString v)

/-- The aggressive_buy field is the derived ask flag joined with the
spread-position threshold: projection equation of normalizeRow. -/
theorem normalizeRow_aggressive_buy (row : JVal) (now : Nat) :
    (normalizeRow row now).aggressive_buy =
      ((normalizeRow row now).at_or_above_ask ||
        posGeThreshold (normalizeRow row now).pos_in_spread) := rfl

/-- The aggressive_sell field is the derived bid flag joined with the
spread-position threshold: projection equation of normalizeRow. -/
theorem normalizeRow_aggressive_sell (row : JVal) (now : Nat) :
    (normalizeRow row now).aggressive_sell =
      ((normalizeRow row now).at_or_below_bid ||
        posLeThreshold (normalizeRow row now).pos_in_spread) := rfl

/-- The aggression tests recomputed by the filter coincide with the
fields the normalizer stored: shared helper for the pipeline claims. -/
theorem meets_eq_fields (row : JVal) (now : Nat) :
    meetsAggressiveBuy (normalizeRow row now) = (normalizeRow row now).aggressive_buy ∧
    meetsAggressiveSell (normalizeRow row now) = (normalizeRow row now).aggressive_sell := by
  constructor
  · show ((normalizeRow row now).aggressive_buy || (normalizeRow row now).at_or_above_ask ||
      posGeThreshold (normalizeRow row now).pos_in_spread) = (normalizeRow row now).aggressive_buy
    rw [normalizeRow_aggressive_buy]
    generalize (normalizeRow row now).at_or_above_ask = a
    generalize posGeThreshold (normalizeRow row now).pos_in_spread = p
    cases a <;> cases p <;> rfl
  · show ((normalizeRow row now).aggressive_sell || (normalizeRow row now).at_or_below_bid ||
      posLeThreshold (normalizeRow row now).pos_in_spread) = (normalizeRow row now).aggressive_sell
    rw [normalizeRow_aggressive_sell]
    generalize (normalizeRow row now).at_or_below_bid = a
    generalize posLeThreshold (normalizeRow row now).pos_in_spread = p
    cases a <;> cases p <;> rfl

/-- Claim C1: for every raw record the normalizer sets aggressive_buy to
at_or_above_ask OR the finite spread position being at least 0.75, and
aggressive_sell to at_or_below_bid OR the spread position being at most
0.25 (the threshold tests are spelled out); a record whose only signal
is price_relation at ask gets at_or_above_ask and aggressive_buy true,
and a record whose only signal is pos_in_spread 0.1 gets aggressive_sell
true and aggressive_buy false. -/
theorem C1_aggressor_inference :
    (∀ row now,
      (normalizeRow row now).aggressive_buy =
        ((normalizeRow row now).at_or_above_ask ||
          posGeThreshold (normalizeRow row now).pos_in_spread) ∧
      (normalizeRow row now).aggressive_sell =
        ((normalizeRow row now).at_or_below_bid ||
          posLeThreshold (normalizeRow row now).pos_in_spread)) ∧
    (∀ q, posGeThreshold (some q) = decide (mkRat 3 4 ≤ q)) ∧
    posGeThreshold none = false ∧
    (∀ q, posLeThreshold (some q) = decide (q ≤ mkRat 1 4)) ∧
    posLeThreshold none = false ∧
    ((normalizeRow (JVal.obj [(("price_relation"), JVal.str ("at ask"))]) 0).at_or_above_ask = true ∧
      (normalizeRow (JVal.obj [(("price_relation"), JVal.str ("at ask"))]) 0).aggressive_buy = true) ∧
    ((normalizeRow (JVal.obj [(("pos_in_spread"), JVal.num (JNum.fin (mkRat 1 10)))]) 0).aggressive_sell = true ∧
      (normalizeRow (JVal.obj [(("pos_in_spread"), JVal.num (JNum.fin (mkRat 1 10)))]) 0).aggressive_buy = false) := by
  refine ⟨fun row now => ⟨normalizeRow_aggressive_buy row now, normalizeRow_aggressive_sell row now⟩,
    fun q => rfl, rfl, fun q => rfl, rfl, ⟨by decide, by decide⟩, ⟨by decide, by decide⟩⟩

/-- Claim C10: the aggression predicates the filter recomputes equal the
normalized records own aggressive_buy and aggressive_sell fields, so
the aggression stage on normalizer output is exactly a filter on those
fields. -/
theorem C10_aggression_refinement :
    (∀ row now,
      meetsAggressiveBuy (normalizeRow row now) = (normalizeRow row now).aggressive_buy ∧
      meetsAggressiveSell (normalizeRow row now) = (normalizeRow row now).aggressive_sell) ∧
    (∀ data now buyOnly sellOnly,
      aggressionStage buyOnly sellOnly (normalizeBenzingaPayload data now) =
        (normalizeBenzingaPayload data now).filter (fun r =>
          if buyOnly && sellOnly then r.aggressive_buy || r.aggressive_sell
          else if buyOnly then r.aggressive_buy
          else if sellOnly then r.aggressive_sell
          else true)) := by
  refine ⟨fun row now => meets_eq_fields row now, ?_⟩
  intro data now b s
  unfold aggressionStage
  apply List.filter_congr
  intro r hr
  simp only [normalizeBenzingaPayload] at hr
  rcases List.mem_map.mp hr with ⟨row, _, rfl⟩
  rcases meets_eq_fields row now with ⟨hb, hs⟩
  rw [hb, hs]

/-- Claim C3: the pipeline is exactly the premium stage, then the
volume-versus-open-interest stage, then the aggression stage; each
stage is an order-preserving subsequence filter, a disabled stage
passes every record through, the aggression stage keeps records by
buy-or-sell, buy-only, or sell-only depending on the enabled flags, and
on normalizer output those tests are the records own aggression
fields. -/
theorem C3_filter_pipeline :
    (∀ fl rows, applyFilters fl rows =
      aggressionStage fl.aggressiveBuyOnly fl.aggressiveSellOnly
        (volumeStage fl.volumeGtOi (premiumStage fl.minPremium rows))) ∧
    (∀ mp rows, List.Sublist (premiumStage mp rows) rows) ∧
    (∀ e rows, List.Sublist (volumeStage e rows) rows) ∧
    (∀ b s rows, List.Sublist (aggressionStage b s rows) rows) ∧
    (∀ fl rows, List.Sublist (applyFilters fl rows) rows) ∧
    (∀ rows, premiumStage none rows = rows) ∧
    (∀ rows, volumeStage false rows = rows) ∧
    (∀ rows, aggressionStage false false rows = rows) ∧
    (∀ rows, aggressionStage true true rows =
      rows.filter (fun r => meetsAggressiveBuy r || meetsAggressiveSell r)) ∧
    (∀ rows, aggressionStage true false rows = rows.filter (fun r => meetsAggressiveBuy r)) ∧
    (∀ rows, aggressionStage false true rows = rows.filter (fun r => meetsAggressiveSell r)) ∧
    (∀ data now b s, aggressionStage b s (normalizeBenzingaPayload data now) =
      (normalizeBenzingaPayload data now).filter (fun r =>
        if b && s then r.aggressive_buy || r.aggressive_sell
        else if b then r.aggressive_buy
        else if s then r.aggressive_sell
        else true)) := by
  have hprem : ∀ mp rows, List.Sublist (premiumStage mp rows) rows := by
    intro mp rows
    cases mp with
    | some m => exact List.filter_sublist rows
    | none => exact List.Sublist.refl rows
  have hvol : ∀ (e : Bool) rows, List.Sublist (volumeStage e rows) rows := by
    intro e rows
    cases e with
    | true => exact List.filter_sublist rows
    | false => exact List.Sublist.refl rows
  have hagg : ∀ (b s : Bool) rows, List.Sublist (aggressionStage b s rows) rows := by
    intro b s rows
    exact List.filter_sublist rows
  refine ⟨fun fl rows => rfl, hprem, hvol, hagg, ?_, fun rows => rfl, fun rows => rfl, ?_,
    fun rows => rfl, fun rows => rfl, fun rows => rfl, ?_⟩
  · intro fl rows
    exact ((hagg _ _ _).trans (hvol _ _)).trans (hprem _ _)
  · intro rows
    show rows.filter (fun r => true) = rows
    simp
  · intro data now b s
    unfold aggressionStage
    apply List.filter_congr
    intro r hr
    simp only [normalizeBenzingaPayload] at hr
    rcases List.mem_map.mp hr with ⟨row, _, rfl⟩
    rcases meets_eq_fields row now with ⟨hb, hs⟩
    rw [hb, hs]

/-- Counterexample to claim C2: a present but non-numeric candidate is
not skipped and does not default to 0 - cost_basis "abc" makes premium
NaN (not finite), and an empty-string cost_basis shadows a later finite
candidate and coerces to 0 instead of taking the 5. -/
theorem C2_counterexample :
    (normalizeRow (JVal.obj [(("cost_basis"), JVal.str ("abc"))]) 0).premium = JNum.nan ∧
    jnumIsFinite (normalizeRow (JVal.obj [(("cost_basis"), JVal.str ("abc"))]) 0).premium = false ∧
    (normalizeRow (JVal.obj [(("cost_basis"), JVal.str ("")),
      (("total_trade_value"), JVal.num (JNum.fin 5))]) 0).premium = JNum.fin 0 := by
  refine ⟨by decide, by decide, by decide⟩

/-- Claim C2 as amended: each numeric canonical field is the Number
coercion of the first non-null, non-undefined candidate (the literal 0
when every candidate is null or undefined); a present candidate is
taken even when empty or non-numeric, so coercion failure yields NaN
rather than 0 and numeric fields are not guaranteed finite. -/
theorem C2_numeric_resolution :
    (∀ row now,
      (normalizeRow row now).premium = resolveNum row premiumKeys ∧
      (normalizeRow row now).trade_price = resolveNum row tradePriceKeys ∧
      (normalizeRow row now).quantity = resolveNum row quantityKeys ∧
      (normalizeRow row now).strike = resolveNum row strikeKeys ∧
      (normalizeRow row now).iv = resolveNum row ivKeys ∧
      (normalizeRow row now).underlying_price = resolveNum row underlyingPriceKeys ∧
      (normalizeRow row now).open_interest = resolveNum row openInterestKeys) ∧
    (∀ row k keys, resolveNum row (k :: keys) =
      (if isNullish (jget row k) = true then resolveNum row keys else toNumber (jget row k))) ∧
    (∀ row keys, (∀ k ∈ keys, isNullish (jget row k) = true) →
      resolveNum row keys = JNum.fin 0) := by
  refine ⟨fun row now => ⟨rfl, rfl, rfl, rfl, rfl, rfl, rfl⟩, ?_, ?_⟩
  · intro row k keys
    by_cases h : isNullish (jget row k) = true <;>
      simp [resolveNum, jgetL, nullishList, h]
  · intro row keys h
    induction keys with
    | nil => rfl
    | cons k ks ih =>
      have hk : isNullish (jget row k) = true := h k (List.mem_cons_self k ks)
      have hrest : ∀ k2 ∈ ks, isNullish (jget row k2) = true :=
        fun k2 hk2 => h k2 (List.mem_cons_of_mem k hk2)
      have := ih hrest
      simp only [resolveNum, jgetL, List.map, nullishList, hk, if_true] at this ⊢
      exact this

/-- Witness for the amended claim C2 at a record with no candidate
fields present: every candidate is undefined and premium resolves to
0. -/
theorem C2_numeric_resolution_witness :
    (∀ k ∈ premiumKeys, isNullish (jget (JVal.obj []) k) = true) ∧
    resolveNum (JVal.obj []) premiumKeys = JNum.fin 0 :=
  ⟨by decide, C2_numeric_resolution.2.2 (JVal.obj []) premiumKeys (by decide)⟩

/-- Counterexample to claim C9: two raw records carrying the same
upstream id produce two canonical records with the same id, so ids are
not unique within a response batch. -/
theorem C9_counterexample :
    (normalizeBenzingaPayload (JVal.arr [JVal.obj [(("id"), JVal.str ("x"))],
        JVal.obj [(("id"), JVal.str ("x"))]]) 0).map (fun r => r.id) =
      [JVal.str ("x"), JVal.str ("x")] ∧
    ¬ ((normalizeBenzingaPayload (JVal.arr [JVal.obj [(("id"), JVal.str ("x"))],
        JVal.obj [(("id"), JVal.str ("x"))]]) 0).map (fun r => r.id)).Nodup := by
  exact ⟨by decide, by decide⟩

/-- Claim C9 as amended: the id of each record is the first truthy of
the upstream id, identifier and option_symbol fields, else a string
synthesized from the ticker (or flow) and the time, updated or current
epoch value; ids are unique within a batch whenever those derived
values are pairwise distinct, but duplicated upstream identity values
produce duplicated ids and a non-string upstream id passes through
unchanged. -/
theorem C9_id_derivation :
    (∀ row now, (normalizeRow row now).id = deriveId row now) ∧
    (∀ data now, (normalizeBenzingaPayload data now).map (fun r => r.id) =
      (extractRows data).map (fun r => deriveId r now)) ∧
    (∀ data now, ((extractRows data).map (fun r => deriveId r now)).Nodup →
      ((normalizeBenzingaPayload data now).map (fun r => r.id)).Nodup) := by
  have hmap : ∀ data now, (normalizeBenzingaPayload data now).map (fun r => r.id) =
      (extractRows data).map (fun r => deriveId r now) := by
    intro data now
    simp only [normalizeBenzingaPayload, List.map_map]
    rfl
  refine ⟨fun row now => rfl, hmap, ?_⟩
  intro data now h
  rw [hmap]
  exact h

/-- Witness for the amended claim C9 at a batch of two records with
distinct upstream ids: the derived ids are pairwise distinct and so are
the canonical ids. -/
theorem C9_id_derivation_witness :
    ((extractRows (JVal.arr [JVal.obj [(("id"), JVal.str ("a"))],
        JVal.obj [(("id"), JVal.str ("b"))]])).map (fun r => deriveId r 0)).Nodup ∧
    ((normalizeBenzingaPayload (JVal.arr [JVal.obj [(("id"), JVal.str ("a"))],
        JVal.obj [(("id"), JVal.str ("b"))]]) 0).map (fun r => r.id)).Nodup :=
  ⟨by decide, C9_id_derivation.2.2 _ 0 (by decide)⟩

/-- Counterexample to claim C8: the boolean-coercion procedure accepts
the string y as true, but sweep is not coerced through it - a record
with sweep "y" normalizes to sweep false (sweep only tests booleans and
the substring sweep). -/
theorem C8_counterexample :
    extractFirstBoolean [JVal.str ("y")] = true ∧
    (normalizeRow (JVal.obj [(("sweep"), JVal.str ("y"))]) 0).sweep = false :=
  ⟨by decide, by decide⟩

/-- A token accepted as true is never accepted as false. -/
theorem tokens_disjoint (n : String) :
    n ∈ trueTokens → n ∉ falseTokens := by
  intro h
  fin_cases h <;> decide

/-- Claim C8 as amended: the explicit at-ask and at-bid hint fields are
coerced via extractFirstBoolean, whose per-candidate recognition
accepts booleans, the numbers 1 and 0, and the strings true, t, yes, y,
1 and false, f, no, n, 0 case-insensitively after trimming, skipping
unrecognized candidates and defaulting to false; sweep, however, is
coerced differently - the first non-nullish of sweep, is_sweep,
order_type, option_activity_type passed through as a boolean, tested
for the substring sweep when a string, and false otherwise. -/
theorem C8_boolean_coercion :
    (extractFirstBoolean [] = false) ∧
    (∀ v vs, extractFirstBoolean (v :: vs) =
      (match recognizeBool v with
       | some b => b
       | none => extractFirstBoolean vs)) ∧
    (∀ b, recognizeBool (JVal.bool b) = some b) ∧
    (∀ q, recognizeBool (JVal.num (JNum.fin q)) =
      (if q = 1 then some true else if q = 0 then some false else none)) ∧
    (∀ s, recognizeBool (JVal.str s) = some true ↔
      lowerStr (jsTrim s) ∈ trueTokens) ∧
    (∀ s, recognizeBool (JVal.str s) = some false ↔
      lowerStr (jsTrim s) ∈ falseTokens) ∧
    (∀ row now, (normalizeRow row now).sweep =
      (match nullish (jget row ("sweep")) (nullish (jget row ("is_sweep"))
          (nullish (jget row ("order_type")) (jget row ("option_activity_type")))) with
       | JVal.bool b => b
       | JVal.str s => strIncludes (lowerStr s) ("sweep")
       | _ => false)) := by
  have hempty : ∀ n : String, n.data.isEmpty = true → n = ("") := by
    intro n h
    obtain ⟨d⟩ := n
    cases d with
    | nil => rfl
    | cons c cs => simp [List.isEmpty] at h
  refine ⟨rfl, ?_, fun b => rfl, fun q => rfl, ?_, ?_, fun row now => rfl⟩
  · intro v vs
    cases v with
    | undef => rfl
    | null => rfl
    | bool b => rfl
    | str s =>
      by_cases h1 : (lowerStr (jsTrim s)).data.isEmpty = true
      · simp [extractFirstBoolean, recognizeBool, h1]
      · by_cases h2 : lowerStr (jsTrim s) ∈ trueTokens
        · simp [extractFirstBoolean, recognizeBool, h1, h2]
        · by_cases h3 : lowerStr (jsTrim s) ∈ falseTokens <;>
            simp [extractFirstBoolean, recognizeBool, h1, h2, h3]
    | num n =>
      cases n with
      | fin q =>
        by_cases h1 : q = 1
        · simp [extractFirstBoolean, recognizeBool, h1]
        · by_cases h0 : q = 0 <;> simp [extractFirstBoolean, recognizeBool, h1, h0]
      | nan => rfl
      | posInf => rfl
      | negInf => rfl
    | arr xs => rfl
    | obj fs => rfl
  · intro s
    by_cases h1 : (lowerStr (jsTrim s)).data.isEmpty = true
    · have he := hempty _ h1
      rw [he]
      simp [recognizeBool, h1, he]
      decide
    · by_cases h2 : lowerStr (jsTrim s) ∈ trueTokens
      · simp [recognizeBool, h1, h2]
      · by_cases h3 : lowerStr (jsTrim s) ∈ falseTokens <;>
          simp [recognizeBool, h1, h2, h3]
  · intro s
    by_cases h1 : (lowerStr (jsTrim s)).data.isEmpty = true
    · have he := hempty _ h1
      rw [he]
      simp [recognizeBool, h1, he]
      decide
    · by_cases h2 : lowerStr (jsTrim s) ∈ trueTokens
      · simp [recognizeBool, h1, h2, tokens_disjoint _ h2]
      · by_cases h3 : lowerStr (jsTrim s) ∈ falseTokens <;>
          simp [recognizeBool, h1, h2, h3]

/-- Removing pairs of a different key does not change a lookup. -/
theorem qlookup_removeKey (q : List (String × String)) (k k2 : String) (h : k ≠ k2) :
    qlookup (removeKey q k2) k = qlookup q k := by
  have hne : ¬ k2 = k := fun hh => h hh.symm
  have hne2 : ¬ k = k2 := h
  induction q with
  | nil => rfl
  | cons p ps ih =>
    by_cases hp : p.1 = k2
    · have hpk : ¬ p.1 = k := fun hk => h (hk ▸ hp)
      simp [removeKey, qlookup, hp, hpk, hne, hne2, ih]
    · by_cases hk : p.1 = k <;> simp [removeKey, qlookup, hp, hk, hne, hne2, ih]

/-- After set, the key looks up to the written value. -/
theorem qlookup_spSet_self (q : List (String × String)) (k v : String) :
    qlookup (spSet q k v) k = some v := by
  induction q with
  | nil => simp [spSet, qlookup]
  | cons p ps ih =>
    by_cases hp : p.1 = k <;> simp [spSet, qlookup, hp, ih]

/-- Set of one key does not change the lookup of another. -/
theorem qlookup_spSet_other (q : List (String × String)) (k k2 v : String) (h : k ≠ k2) :
    qlookup (spSet q k2 v) k = qlookup q k := by
  have hne : ¬ k2 = k := fun hh => h hh.symm
  have hne2 : ¬ k = k2 := h
  induction q with
  | nil => simp [spSet, qlookup, hne]
  | cons p ps ih =>
    by_cases hp : p.1 = k2
    · have hpk : ¬ p.1 = k := fun hk => h (hk ▸ hp)
      simp [spSet, qlookup, hp, hpk, hne, hne2, qlookup_removeKey ps k k2 h]
    · by_cases hk : p.1 = k <;> simp [spSet, qlookup, hp, hk, hne, hne2, ih]

/-- The three flag parameters of a cache key look up to their rendered
values. -/
theorem cacheKey_flag_lookups (api : JsURL) (v b s : Bool) :
    qlookup (buildCacheKey api v b s).query ("volume_gt_oi") = some (boolStr v) ∧
    qlookup (buildCacheKey api v b s).query ("aggressive_buy_only") = some (boolStr b) ∧
    qlookup (buildCacheKey api v b s).query ("aggressive_sell_only") = some (boolStr s) := by
  unfold buildCacheKey
  refine ⟨?_, ?_, ?_⟩
  · rw [qlookup_spSet_other _ _ _ _ (by decide), qlookup_spSet_other _ _ _ _ (by decide),
      qlookup_spSet_self]
  · rw [qlookup_spSet_other _ _ _ _ (by decide), qlookup_spSet_self]
  · rw [qlookup_spSet_self]

/-- Rendered flags determine the flag. -/
theorem boolStr_injective (a b : Bool) (h : boolStr a = boolStr b) : a = b := by
  cases a <;> cases b <;> first | rfl | exact absurd h (by decide)

/-- Claim C4: the cache key is the upstream URL with volume_gt_oi,
aggressive_buy_only and aggressive_sell_only appended as explicit
boolean query parameters; with the same upstream URL, two keys are
equal exactly when all three flags agree - so requests differing only
in these flags never collide and identical requests share one key. -/
theorem C4_cache_key :
    ∀ api v b s v2 b2 s2,
      (buildCacheKey api v b s).origin = api.origin ∧
      qlookup (buildCacheKey api v b s).query ("volume_gt_oi") = some (boolStr v) ∧
      qlookup (buildCacheKey api v b s).query ("aggressive_buy_only") = some (boolStr b) ∧
      qlookup (buildCacheKey api v b s).query ("aggressive_sell_only") = some (boolStr s) ∧
      (buildCacheKey api v b s = buildCacheKey api v2 b2 s2 ↔ (v = v2 ∧ b = b2 ∧ s = s2)) := by
  intro api v b s v2 b2 s2
  obtain ⟨h1, h2, h3⟩ := cacheKey_flag_lookups api v b s
  obtain ⟨g1, g2, g3⟩ := cacheKey_flag_lookups api v2 b2 s2
  refine ⟨rfl, h1, h2, h3, ?_, ?_⟩
  · intro he
    refine ⟨boolStr_injective v v2 ?_, boolStr_injective b b2 ?_, boolStr_injective s s2 ?_⟩
    · have := h1.symm.trans (he ▸ g1)
      exact Option.some.inj this
    · have := h2.symm.trans (he ▸ g2)
      exact Option.some.inj this
    · have := h3.symm.trans (he ▸ g3)
      exact Option.some.inj this
  · rintro ⟨rfl, rfl, rfl⟩
    rfl

/-- Every failure envelope the worker builds has the documented failure
shape. -/
theorem failurePayload_shape (st : Nat) (data : JVal) (txt : String) :
    isFailureEnvelopeShape (failurePayload st data txt) = true := by
  by_cases h : typeofIsObject data = true
  · unfold failurePayload
    rw [if_pos h]
    unfold isFailureEnvelopeShape
    simp [h]
  · unfold failurePayload
    rw [if_neg h]
    rfl

/-- On a miss the handler runs the fetch-and-store path. -/
theorem handle_miss (env : WorkerEnv) (ps : List (String × String)) (cache : Cache)
    (upstream : UpstreamResponse) (now : Nat)
    (hk : ¬ env.apiKey = ("")) (hm : cacheFind cache (requestCacheKey env ps) = none) :
    handleUOARequest env ps cache upstream now =
      fetchAndRespond env ps cache (requestCacheKey env ps) upstream now := by
  simp only [handleUOARequest, hm, hk, if_false]

/-- The fetch path always consults upstream, stores only on success (a
copy tagged with the TTL cache-control) and leaves the cache unchanged
on failure. -/
theorem fetchAndRespond_cache (env : WorkerEnv) (ps : List (String × String)) (cache : Cache)
    (key : JsURL) (upstream : UpstreamResponse) (now : Nat) :
    (fetchAndRespond env ps cache key upstream now).2.2 = true ∧
    (upstream.ok = true →
      (fetchAndRespond env ps cache key upstream now).2.1 =
        cachePut cache key
          { status := 200
          , body := (fetchAndRespond env ps cache key upstream now).1.body
          , cacheControl := some (("public, max-age=") ++ Nat.repr env.cacheTtl) }) ∧
    (upstream.ok = false →
      (fetchAndRespond env ps cache key upstream now).2.1 = cache ∧
      (fetchAndRespond env ps cache key upstream now).1.body =
        failurePayload upstream.status
          (upstream.jsonBody.getD (JVal.obj [(("error"), JVal.str ("Upstream decode failed"))]))
          upstream.statusText ∧
      (fetchAndRespond env ps cache key upstream now).1.status = upstream.status) := by
  obtain ⟨ok, status, statusText, jsonBody⟩ := upstream
  cases ok <;> simp [fetchAndRespond]

/-- Claim C5: on a cache miss the upstream fetch runs; the response is
written back exactly when the upstream response is ok, tagged with the
TTL-bounded cache-control directive; failure responses leave the cache
unchanged, so an immediate repeat of a failed request misses again and
re-invokes the upstream fetch. -/
theorem C5_cache_store (env : WorkerEnv) (ps : List (String × String)) (cache : Cache)
    (upstream : UpstreamResponse) (now : Nat)
    (hk : ¬ env.apiKey = ("")) (hm : cacheFind cache (requestCacheKey env ps) = none) :
    (handleUOARequest env ps cache upstream now).2.2 = true ∧
    (upstream.ok = true →
      (handleUOARequest env ps cache upstream now).2.1 =
        cachePut cache (requestCacheKey env ps)
          { status := 200
          , body := (handleUOARequest env ps cache upstream now).1.body
          , cacheControl := some (("public, max-age=") ++ Nat.repr env.cacheTtl) }) ∧
    (upstream.ok = false →
      (handleUOARequest env ps cache upstream now).2.1 = cache ∧
      ∀ upstream2 now2,
        (handleUOARequest env ps (handleUOARequest env ps cache upstream now).2.1
          upstream2 now2).2.2 = true) := by
  have hrw := handle_miss env ps cache upstream now hk hm
  obtain ⟨h1, h2, h3⟩ := fetchAndRespond_cache env ps cache (requestCacheKey env ps) upstream now
  rw [hrw]
  refine ⟨h1, h2, fun hfail => ⟨(h3 hfail).1, ?_⟩⟩
  intro upstream2 now2
  rw [(h3 hfail).1]
  rw [handle_miss env ps cache upstream2 now2 hk hm]
  exact (fetchAndRespond_cache env ps cache (requestCacheKey env ps) upstream2 now2).1

/-- Witness for claim C5: a concrete rate-limited request against an
empty cache fetches upstream and writes nothing back. -/
theorem C5_cache_store_witness :
    (¬ ({ apiKey := ("k"), useAuthHeader := false,
          baseUrl := { origin := ("https://api.example/"), query := [] },
          cacheTtl := 30 } : WorkerEnv).apiKey = ("")) ∧
    cacheFind ([] : Cache) (requestCacheKey
      { apiKey := ("k"), useAuthHeader := false,
        baseUrl := { origin := ("https://api.example/"), query := [] }, cacheTtl := 30 } []) = none ∧
    ((handleUOARequest
        { apiKey := ("k"), useAuthHeader := false,
          baseUrl := { origin := ("https://api.example/"), query := [] }, cacheTtl := 30 }
        [] []
        { ok := false, status := 429, statusText := ("Too Many Requests"),
          jsonBody := some (JVal.obj [(("message"), JVal.str ("rate limited"))]) } 0).2.2 = true ∧
      (handleUOARequest
        { apiKey := ("k"), useAuthHeader := false,
          baseUrl := { origin := ("https://api.example/"), query := [] }, cacheTtl := 30 }
        [] []
        { ok := false, status := 429, statusText := ("Too Many Requests"),
          jsonBody := some (JVal.obj [(("message"), JVal.str ("rate limited"))]) } 0).2.1 = []) := by
  refine ⟨by decide, rfl, ?_⟩
  have h := C5_cache_store
    { apiKey := ("k"), useAuthHeader := false,
      baseUrl := { origin := ("https://api.example/"), query := [] }, cacheTtl := 30 }
    [] []
    { ok := false, status := 429, statusText := ("Too Many Requests"),
      jsonBody := some (JVal.obj [(("message"), JVal.str ("rate limited"))]) } 0
    (by decide) rfl
  exact ⟨h.1, (h.2.2 rfl).1⟩

/-- Counterexample to claim C7: a request made while the API credential
is missing is answered with status 500 and the body with the single
field error, which does not carry the failure envelope shape with ok,
source_status, error and error_details. -/
theorem C7_counterexample :
    (handleUOARequest
        { apiKey := (""), useAuthHeader := false,
          baseUrl := { origin := ("https://api.example/"), query := [] }, cacheTtl := 30 }
        [] []
        { ok := true, status := 200, statusText := ("OK"), jsonBody := some (JVal.arr []) }
        0).1 = missingKeyResponse ∧
    missingKeyResponse.body = JVal.obj [(("error"), JVal.str ("Missing BENZINGA_API_KEY secret"))] ∧
    missingKeyResponse.status = 500 ∧
    isFailureEnvelopeShape missingKeyResponse.body = false := by
  exact ⟨rfl, rfl, rfl, by decide⟩

/-- Claim C7 as amended: failure responses on the upstream-failure path
carry the envelope shape with ok false, source_status, error and
error_details, and their status is the upstream status; a missing API
credential is instead answered, before any upstream fetch, with status
500 and the bare body containing only an error string. -/
theorem C7_failure_envelopes (env : WorkerEnv) (ps : List (String × String)) (cache : Cache)
    (upstream : UpstreamResponse) (now : Nat) :
    (env.apiKey = ("") →
      handleUOARequest env ps cache upstream now = (missingKeyResponse, cache, false) ∧
      missingKeyResponse.status = 500 ∧
      missingKeyResponse.body =
        JVal.obj [(("error"), JVal.str ("Missing BENZINGA_API_KEY secret"))] ∧
      isFailureEnvelopeShape missingKeyResponse.body = false ∧
      (handleUOARequest env ps cache upstream now).2.2 = false) ∧
    (¬ env.apiKey = ("") → cacheFind cache (requestCacheKey env ps) = none →
      upstream.ok = false →
      isFailureEnvelopeShape (handleUOARequest env ps cache upstream now).1.body = true ∧
      (handleUOARequest env ps cache upstream now).1.status = upstream.status) := by
  constructor
  · intro hk
    have hh : handleUOARequest env ps cache upstream now = (missingKeyResponse, cache, false) := by
      simp only [handleUOARequest, hk, if_true]
    exact ⟨hh, rfl, rfl, by decide, by rw [hh]⟩
  · intro hk hm hfail
    rw [handle_miss env ps cache upstream now hk hm]
    obtain ⟨-, -, h3⟩ := fetchAndRespond_cache env ps cache (requestCacheKey env ps) upstream now
    obtain ⟨-, hbody, hstatus⟩ := h3 hfail
    rw [hbody, hstatus]
    exact ⟨failurePayload_shape _ _ _, rfl⟩

/-- Witness for the amended claim C7: the missing-credential branch at a
concrete request, and the failure-envelope shape at a concrete
rate-limited upstream response. -/
theorem C7_failure_envelopes_witness :
    (handleUOARequest
        { apiKey := (""), useAuthHeader := false,
          baseUrl := { origin := ("https://api.example/"), query := [] }, cacheTtl := 30 }
        [] []
        { ok := false, status := 429, statusText := ("Too Many Requests"),
          jsonBody := some (JVal.obj [(("message"), JVal.str ("rate limited"))]) } 0) =
      (missingKeyResponse, [], false) ∧
    isFailureEnvelopeShape (handleUOARequest
        { apiKey := ("k"), useAuthHeader := false,
          baseUrl := { origin := ("https://api.example/"), query := [] }, cacheTtl := 30 }
        [] []
        { ok := false, status := 429, statusText := ("Too Many Requests"),
          jsonBody := some (JVal.obj [(("message"), JVal.str ("rate limited"))]) } 0).1.body = true := by
  constructor
  · exact (C7_failure_envelopes
      { apiKey := (""), useAuthHeader := false,
        baseUrl := { origin := ("https://api.example/"), query := [] }, cacheTtl := 30 }
      [] []
      { ok := false, status := 429, statusText := ("Too Many Requests"),
        jsonBody := some (JVal.obj [(("message"), JVal.str ("rate limited"))]) } 0).1 rfl |>.1
  · exact (C7_failure_envelopes
      { apiKey := ("k"), useAuthHeader := false,
        baseUrl := { origin := ("https://api.example/"), query := [] }, cacheTtl := 30 }
      [] []
      { ok := false, status := 429, statusText := ("Too Many Requests"),
        jsonBody := some (JVal.obj [(("message"), JVal.str ("rate limited"))]) } 0).2
      (by decide) rfl rfl |>.1

/-- Whitespace characters are not kept by the numeric cleaner. -/
theorem ws_not_keep (c : Char) (h : jsWhitespace c = true) : numericKeep c = false := by
  simp only [jsWhitespace, Bool.or_eq_true, beq_iff_eq] at h
  rcases h with ((h | h) | h) | h <;> subst h <;> decide

/-- Dropping a whitespace prefix does not change the numeric cleaning. -/
theorem filter_dropWhile_ws (l : List Char) :
    (l.dropWhile jsWhitespace).filter numericKeep = l.filter numericKeep := by
  induction l with
  | nil => rfl
  | cons c t ih =>
    by_cases hc : jsWhitespace c = true
    · simp [List.dropWhile_cons, List.filter_cons, hc, ws_not_keep c hc, ih]
    · simp [List.dropWhile_cons, hc]

/-- Trimming first does not change the numeric cleaning. -/
theorem cleanNumeric_jsTrim (s : String) : cleanNumeric (jsTrim s) = cleanNumeric s := by
  show String.mk ((((s.data.dropWhile jsWhitespace).reverse.dropWhile
      jsWhitespace).reverse).filter numericKeep) = String.mk (s.data.filter numericKeep)
  rw [List.filter_reverse, filter_dropWhile_ws, List.filter_reverse, filter_dropWhile_ws,
    List.reverse_reverse]

/-- A sign character is a plus or a minus. -/
theorem signChar_cases (c : Char) (h : signChar c = true) : c = '+' ∨ c = '-' := by
  simp only [signChar, Bool.or_eq_true, beq_iff_eq] at h
  exact h

/-- Dropping while a predicate that fails on every element is the
identity. -/
theorem dropWhile_all_false (p : Char → Bool) (l : List Char)
    (h : ∀ c ∈ l, p c = false) : l.dropWhile p = l := by
  cases l with
  | nil => rfl
  | cons c t => simp [List.dropWhile_cons, h c (List.mem_cons_self c t)]

/-- A string of signs has no whitespace to trim. -/
theorem jsTrim_of_onlySigns (s : String) (h : onlySigns s = true) : jsTrim s = s := by
  obtain ⟨d⟩ := s
  simp only [onlySigns, Bool.and_eq_true, List.all_eq_true] at h
  have hws : ∀ c ∈ d, jsWhitespace c = false := by
    intro c hc
    rcases signChar_cases c (h.2 c hc) with rfl | rfl <;> decide
  show String.mk (((d.dropWhile jsWhitespace).reverse.dropWhile jsWhitespace).reverse) =
    String.mk d
  rw [dropWhile_all_false _ d hws,
    dropWhile_all_false _ d.reverse (fun c hc => hws c (List.mem_reverse.mp hc)),
    List.reverse_reverse]

/-- A nonempty all-sign string does not convert to a number: the
JavaScript Number of it is NaN. -/
theorem parse_onlySigns_nan (s : String) (h : onlySigns s = true) :
    parseJsNumber s = JNum.nan := by
  have htrim := jsTrim_of_onlySigns s h
  obtain ⟨d⟩ := s
  simp only [onlySigns, Bool.and_eq_true, List.all_eq_true] at h
  cases d with
  | nil => simp [List.isEmpty] at h
  | cons c0 rest =>
    have hsign0 : signChar c0 = true := h.2 c0 (List.mem_cons_self c0 rest)
    have hsignrest : ∀ c ∈ rest, signChar c = true :=
      fun c hc => h.2 c (List.mem_cons_of_mem c0 hc)
    have hnd : parseNonDecimal (c0 :: rest) = none := by
      cases rest with
      | nil => rfl
      | cons c1 r2 =>
        have h0 : ¬ c0 = '0' := by
          rcases signChar_cases c0 hsign0 with rfl | rfl <;> decide
        simp [parseNonDecimal, h0]
    have hInf : ¬ rest = ("Infinity").data := by
      cases rest with
      | nil => intro hh; simp at hh
      | cons c1 r2 =>
        intro hh
        have hs1 : signChar c1 = true := hsignrest c1 (List.mem_cons_self c1 r2)
        have : c1 = 'I' := by
          have := congrArg (fun l => l.headD ' ') hh
          simpa using this
        rw [this] at hs1
        exact absurd hs1 (by decide)
    have hdec : parseUnsignedDec rest = none := by
      cases rest with
      | nil => rfl
      | cons c1 r2 =>
        have hs1 : signChar c1 = true := hsignrest c1 (List.mem_cons_self c1 r2)
        have hdig : Char.isDigit c1 = false := by
          rcases signChar_cases c1 hs1 with rfl | rfl <;> decide
        have hdot : ¬ c1 = '.' := by
          rcases signChar_cases c1 hs1 with rfl | rfl <;> decide
        simp [parseUnsignedDec, List.takeWhile_cons, List.dropWhile_cons, hdig, hdot]
    unfold parseJsNumber
    rw [htrim]
    simp only [List.isEmpty_cons, Bool.false_eq_true, if_false, hnd]
    rcases signChar_cases c0 hsign0 with rfl | rfl <;>
      simp [stripSign, hInf, hdec]

/-- Claim C6: the numeric filter sanitizer strips every character except
digits, dot, plus, minus from the (stringified) input; it returns none
exactly when the input is null or undefined, the cleaned string is
empty or consists only of sign characters, or the cleaned string does
not convert to a finite number; otherwise it returns the parsed value
with the cleaned string, as on the dollar-formatted example. The
function is total, so no input can raise. -/
theorem C6_sanitizer :
    (∀ v,
      (normalizeNumericFilter v = none ↔
        (isNullish v = true ∨ cleanedOf v = ("") ∨ onlySigns (cleanedOf v) = true ∨
          jnumIsFinite (parseJsNumber (cleanedOf v)) = false)) ∧
      (∀ f, normalizeNumericFilter v = some f →
        f.textValue = cleanedOf v ∧ JNum.fin f.numericValue = parseJsNumber (cleanedOf v))) ∧
    normalizeNumericFilter (JVal.str ("$50,000")) =
      some { numericValue := 50000, textValue := ("50000") } ∧
    normalizeNumericFilter (JVal.str ("abc")) = none ∧
    normalizeNumericFilter (JVal.str ("--")) = none ∧
    normalizeNumericFilter (JVal.str ("")) = none ∧
    normalizeNumericFilter JVal.null = none ∧
    normalizeNumericFilter JVal.undef = none := by
  refine ⟨?_, by decide, by decide, by decide, by decide, by decide, by decide⟩
  intro v
  by_cases hv : isNullish v = true
  · constructor
    · simp [normalizeNumericFilter, hv]
    · intro f hf
      simp [normalizeNumericFilter, hv] at hf
  · have hcleq : cleanNumeric (jsTrim (jsToString v)) = cleanedOf v := cleanNumeric_jsTrim _
    by_cases ht : (jsTrim (jsToString v)).data.isEmpty = true
    · have hdata : (jsTrim (jsToString v)).data = [] := by
        cases hd : (jsTrim (jsToString v)).data with
        | nil => rfl
        | cons c t => rw [hd] at ht; simp [List.isEmpty] at ht
      have hc0 : cleanedOf v = ("") := by
        rw [← hcleq]
        show String.mk ((jsTrim (jsToString v)).data.filter numericKeep) = ("")
        rw [hdata]
        rfl
      constructor
      · constructor
        · intro _
          exact Or.inr (Or.inl hc0)
        · intro _
          simp [normalizeNumericFilter, hv, ht]
      · intro f hf
        simp [normalizeNumericFilter, hv, ht] at hf
    · by_cases hre : cleanNumeric (jsTrim (jsToString v)) = ("") ∨
        cleanNumeric (jsTrim (jsToString v)) = ("+") ∨
        cleanNumeric (jsTrim (jsToString v)) = ("-")
      · have hcond : cleanedOf v = ("") ∨ onlySigns (cleanedOf v) = true := by
          rcases hre with h | h | h
          · exact Or.inl (hcleq ▸ h)
          · refine Or.inr ?_
            rw [← hcleq, h]
            decide
          · refine Or.inr ?_
            rw [← hcleq, h]
            decide
        constructor
        · constructor
          · intro _
            rcases hcond with h | h
            · exact Or.inr (Or.inl h)
            · exact Or.inr (Or.inr (Or.inl h))
          · intro _
            simp [normalizeNumericFilter, hv, ht, hre]
        · intro f hf
          simp [normalizeNumericFilter, hv, ht, hre] at hf
      · cases hp : parseJsNumber (cleanNumeric (jsTrim (jsToString v))) with
        | fin q =>
          have hsome : normalizeNumericFilter v =
              some { numericValue := q, textValue := cleanNumeric (jsTrim (jsToString v)) } := by
            simp [normalizeNumericFilter, hv, ht, hre, hp]
          constructor
          · constructor
            · intro hnone
              rw [hsome] at hnone
              exact absurd hnone (by simp)
            · intro hcond
              exfalso
              rcases hcond with h | h | h | h
              · exact hv h
              · exact hre (Or.inl (hcleq.trans h))
              · have := parse_onlySigns_nan (cleanedOf v) h
                rw [← hcleq] at this
                rw [hp] at this
                exact absurd this (by simp)
              · rw [← hcleq, hp] at h
                exact absurd h (by simp [jnumIsFinite])
          · intro f hf
            rw [hsome] at hf
            have hfe : f = { numericValue := q, textValue := cleanNumeric (jsTrim (jsToString v)) } :=
              (Option.some.inj hf).symm ▸ rfl
            rw [hfe]
            exact ⟨hcleq, by rw [← hcleq, hp]⟩
        | nan =>
          have hnone2 : normalizeNumericFilter v = none := by
            simp [normalizeNumericFilter, hv, ht, hre, hp]
          refine ⟨⟨fun _ => ?_, fun _ => hnone2⟩, fun f hf => ?_⟩
          · refine Or.inr (Or.inr (Or.inr ?_))
            rw [← hcleq, hp]
            rfl
          · rw [hnone2] at hf
            exact absurd hf (by simp)
        | posInf =>
          have hnone2 : normalizeNumericFilter v = none := by
            simp [normalizeNumericFilter, hv, ht, hre, hp]
          refine ⟨⟨fun _ => ?_, fun _ => hnone2⟩, fun f hf => ?_⟩
          · refine Or.inr (Or.inr (Or.inr ?_))
            rw [← hcleq, hp]
            rfl
          · rw [hnone2] at hf
            exact absurd hf (by simp)
        | negInf =>
          have hnone2 : normalizeNumericFilter v = none := by
            simp [normalizeNumericFilter, hv, ht, hre, hp]
          refine ⟨⟨fun _ => ?_, fun _ => hnone2⟩, fun f hf => ?_⟩
          · refine Or.inr (Or.inr (Or.inr ?_))
            rw [← hcleq, hp]
            rfl
          · rw [hnone2] at hf
            exact absurd hf (by simp)

/-- Witness for claim C6: the dollar-formatted input is accepted and the
returned filter indeed carries the cleaned text and its parsed value. -/
theorem C6_sanitizer_witness :
    normalizeNumericFilter (JVal.str ("$50,000")) =
      some { numericValue := 50000, textValue := ("50000") } ∧
    ({ numericValue := 50000, textValue := ("50000") } : NumericFilter).textValue =
      cleanedOf (JVal.str ("$50,000")) ∧
    JNum.fin ({ numericValue := 50000, textValue := ("50000") } : NumericFilter).numericValue =
      parseJsNumber (cleanedOf (JVal.str ("$50,000"))) := by
  have h := (C6_sanitizer.1 (JVal.str ("$50,000"))).2
    { numericValue := 50000, textValue := ("50000") } (by decide)
  exact ⟨by decide, h.1, h.2⟩
